import Mathlib

/-!
Verification of the decoding core of `streamlit_app.py` (SBG status decoder).

The source function is `decode_status(decimal_code, status_definition)`:
it iterates over `status_definition.get("fields", [])`; for each field dict
it runs a `try` block that dispatches on `field["type"]` ("mask" or "enum"),
appends at most one string to `active_flags`, and catches `KeyError` by
emitting a `st.warning` diagnostic that names the missing key and moving on.

Embedding choices:
  - `code` is an arbitrary-precision integer, modelled as `Int`; Python `&`
    is `Int.land` and Python `>>` / `<<` are the arithmetic shifts `>>> / <<<`
    of `Mathlib.Data.Int.Bitwise`, which agree with two-complement Python
    semantics.
  - A YAML field dict is a record of optional entries; `field[k]` is
    `getKey`, which returns `Except.error k` when the key is absent,
    modelling `KeyError(k)`.
  - `bit` and `shift` are `Nat` (the schema declares them non-negative; a
    negative shift would be a ValueError in Python, outside the well-typed
    inputs the spec considers).
  - The `st.warning` side effect is modelled by a second output list holding,
    for each skipped field, the missing key named by the caught `KeyError`
    (the Python message text wraps exactly that key).
-/

/-- One entry of a `fields` list from the YAML schema, as a dict whose keys
may each be absent. -/
structure FieldSpec where
  type : Option String := none
  bit : Option Nat := none
  shift : Option Nat := none
  mask : Option Int := none
  name : Option String := none
  values : Option (List (Int × String)) := none

/-- One status definition from the YAML schema: an optional description and
an optional `fields` list (the source reads it with `.get("fields", [])`). -/
structure StatusDefinition where
  description : Option String := none
  fields : Option (List FieldSpec) := none

/-- Dict access `field[k]`: `Except.error k` models `KeyError(k)`. -/
def getKey (o : Option α) (k : String) : Except String α :=
  match o with
  | some v => Except.ok v
  | none => Except.error k

/-- The body of the `try` block of `decode_status` for one field, with the
source evaluation order of the dict accesses preserved:
`type`; for mask: `bit`, then the bit test, then `name` (only when the bit is
set, since `field["name"]` sits inside the `append` call); for enum: `shift`,
`mask`, `values`, `name`.  `Except.ok (some s)` means `s` is appended,
`Except.ok none` means nothing happens, `Except.error k` means a `KeyError`
on key `k` escapes to the handler. -/
def processField (decimal_code : Int) (field : FieldSpec) : Except String (Option String) :=
  match getKey field.type "type" with
  | Except.error k => Except.error k
  | Except.ok t =>
    if t = "mask" then
      match getKey field.bit "bit" with
      | Except.error k => Except.error k
      | Except.ok b =>
        let bit_value : Int := (1 : Int) <<< (b : Int)
        if Int.land decimal_code bit_value = bit_value then
          match getKey field.name "name" with
          | Except.error k => Except.error k
          | Except.ok n => Except.ok (some n)
        else
          Except.ok none
    else if t = "enum" then
      match getKey field.shift "shift" with
      | Except.error k => Except.error k
      | Except.ok s =>
        let shifted : Int := decimal_code >>> (s : Int)
        match getKey field.mask "mask" with
        | Except.error k => Except.error k
        | Except.ok m =>
          let enum_val : Int := Int.land shifted m
          match getKey field.values "values" with
          | Except.error k => Except.error k
          | Except.ok vs =>
            let enum_name : String :=
              match vs.lookup enum_val with
              | some l => l
              | none => "Unbekannter Wert (" ++ toString enum_val ++ ")"
            match getKey field.name "name" with
            | Except.error k => Except.error k
            | Except.ok n => Except.ok (n ++ ": " ++ enum_name)
    else
      Except.ok none

/-- The `for field in fields_to_check` loop of `decode_status`: first
component collects `active_flags` in order, second collects the missing-key
diagnostics of the caught `KeyError`s in order. -/
def decodeFields (decimal_code : Int) : List FieldSpec → List String × List String
  | [] => ([], [])
  | f :: rest =>
    match processField decimal_code f with
    | Except.ok (some s) =>
      let r := decodeFields decimal_code rest
      (s :: r.1, r.2)
    | Except.ok none => decodeFields decimal_code rest
    | Except.error k =>
      let r := decodeFields decimal_code rest
      (r.1, k :: r.2)

/-- `decode_status` of the source: returns `active_flags` (first component)
together with the emitted diagnostics (second component, modelling the
`st.warning` calls). -/
def decode_status (decimal_code : Int) (status_definition : StatusDefinition) :
    List String × List String :=
  decodeFields decimal_code (status_definition.fields.getD [])

/-- A definition holding a single well-formed mask field. -/
def maskFieldDef (b : Nat) (label : String) : StatusDefinition :=
  { fields := some [{ type := some "mask", bit := some b, name := some label }] }

/-- A definition holding a single well-formed enum field. -/
def enumFieldDef (s : Nat) (m : Int) (label : String) (vs : List (Int × String)) :
    StatusDefinition :=
  { fields := some [{ type := some "enum", shift := some s, mask := some m,
                      name := some label, values := some vs }] }

/-- A field of declared type mask or enum that lacks at least one key the
source accesses on that branch. -/
def requiredKeyMissing (f : FieldSpec) : Prop :=
  (f.type = some "mask" ∧ (f.bit = none ∨ f.name = none)) ∨
  (f.type = some "enum" ∧
    (f.shift = none ∨ f.mask = none ∨ f.values = none ∨ f.name = none))

/-- Helper: the loop of `decode_status` computes, in field order, the
successful appends and the missing-key diagnostics of the fields. -/
theorem decodeFields_eq (code : Int) (fs : List FieldSpec) :
    decodeFields code fs =
      (fs.filterMap (fun f => ((processField code f).toOption).join),
       fs.filterMap (fun f =>
         match processField code f with
         | Except.error k => some k
         | Except.ok _ => none)) := by
  induction fs with
  | nil => rfl
  | cons f rest ih =>
    cases hp : processField code f with
    | error k =>
      simp [decodeFields, hp, List.filterMap_cons, ih, Except.toOption]
    | ok o =>
      cases o <;>
        simp [decodeFields, hp, List.filterMap_cons, ih, Except.toOption, Option.join]

/-- C1: for every integer `code`, bit index `b` and label, decoding a
definition with that single mask field lists the label iff
`(code & (1 <<< b)) = (1 <<< b)`, i.e. iff bit `b` of `code` is 1. -/
theorem mask_flag_iff_bit_set (code : Int) (b : Nat) (label : String) :
    label ∈ (decode_status code (maskFieldDef b label)).1 ↔
      Int.land code ((1 : Int) <<< (b : Int)) = (1 : Int) <<< (b : Int) := by
  by_cases h : Int.land code ((1 : Int) <<< (b : Int)) = (1 : Int) <<< (b : Int) <;>
    simp [decode_status, maskFieldDef, decodeFields, processField, getKey, h]

/-- C2: for every integer `code` and well-formed enum field, the decoder
extracts `(code >>> shift) &&& mask` and, when that value is mapped in
`values`, appends exactly the string `name ++ ": " ++ label` (and emits no
diagnostic). -/
theorem enum_mapped_value (code : Int) (s : Nat) (m : Int) (label l : String)
    (vs : List (Int × String))
    (h : vs.lookup (Int.land (code >>> (s : Int)) m) = some l) :
    decode_status code (enumFieldDef s m label vs) = ([label ++ ": " ++ l], []) := by
  simp [decode_status, enumFieldDef, decodeFields, processField, getKey, h]

/-- Witness for C2: spec example 2, `(16 >>> 4) &&& 3 = 1` maps to Active. -/
theorem enum_mapped_value_witness :
    [(0, "Idle"), (1, "Active")].lookup (Int.land ((16 : Int) >>> ((4 : Nat) : Int)) 3) =
        some "Active" ∧
      decode_status 16 (enumFieldDef 4 3 "Mode" [(0, "Idle"), (1, "Active")]) =
        (["Mode: Active"], []) :=
  ⟨by decide, enum_mapped_value 16 4 3 "Mode" "Active" [(0, "Idle"), (1, "Active")] (by decide)⟩


/-- Counterexample for C3: spec example 3 (shift 4, mask 3, code 48, value 3
unmapped).  The decoder does append a fallback entry, but its literal text is
the German "Unbekannter Wert (3)" hard-coded in the source, not
"Unknown Value (3)" as the claim states. -/
theorem enum_unmapped_label_counterexample :
    decode_status 48 (enumFieldDef 4 3 "Mode" [(0, "Idle"), (1, "Active")]) =
        (["Mode: Unbekannter Wert (3)"], []) ∧
      (decode_status 48 (enumFieldDef 4 3 "Mode" [(0, "Idle"), (1, "Active")])).1 ≠
        ["Mode: Unknown Value (3)"] := by
  refine ⟨by decide, by decide⟩

/-- C3 amended: for every integer `code` and well-formed enum field whose
extracted value `v = (code >>> shift) &&& mask` has no entry in `values`, the
decoder appends exactly `name ++ ": Unbekannter Wert (" ++ v ++ ")"` with `v`
rendered in decimal, and the field is never dropped silently. -/
theorem enum_unmapped_value (code : Int) (s : Nat) (m : Int) (label : String)
    (vs : List (Int × String))
    (h : vs.lookup (Int.land (code >>> (s : Int)) m) = none) :
    decode_status code (enumFieldDef s m label vs) =
      ([label ++ ": " ++
          ("Unbekannter Wert (" ++ toString (Int.land (code >>> (s : Int)) m) ++ ")")],
       []) := by
  simp [decode_status, enumFieldDef, decodeFields, processField, getKey, h]

/-- Witness for the amended C3: spec example 3, `(48 >>> 4) &&& 3 = 3` is
unmapped. -/
theorem enum_unmapped_value_witness :
    [(0, "Idle"), (1, "Active")].lookup (Int.land ((48 : Int) >>> ((4 : Nat) : Int)) 3) =
        none ∧
      decode_status 48 (enumFieldDef 4 3 "Mode" [(0, "Idle"), (1, "Active")]) =
        (["Mode: " ++
            ("Unbekannter Wert (" ++
              toString (Int.land ((48 : Int) >>> ((4 : Nat) : Int)) 3) ++ ")")],
         []) :=
  ⟨by decide, enum_unmapped_value 48 4 3 "Mode" [(0, "Idle"), (1, "Active")] (by decide)⟩

/-- Counterexample for C4: a mask field lacking the required key `name`, with
a code whose bit 0 is clear.  Python only evaluates `field["name"]` inside the
`append` call, so no `KeyError` is raised and no diagnostic is emitted: the
second component is empty, contradicting the claimed unconditional
diagnostic. -/
theorem malformed_field_no_diagnostic_counterexample :
    decode_status 0 { fields := some [{ type := some "mask", bit := some 0 }] } =
      ([], []) := by
  decide

/-- Helper: a field missing a key that its declared branch requires can never
append an output string: the branch either hits the missing key (a KeyError)
or, for a mask field whose bit test fails, appends nothing. -/
theorem processField_not_some_of_missing (code : Int) (f : FieldSpec)
    (h : requiredKeyMissing f) (s : String) :
    processField code f ≠ Except.ok (some s) := by
  intro hs
  rcases h with ⟨ht, hb | hn⟩ | ⟨ht, hsh | hm | hv | hn⟩
  · simp [processField, getKey, ht, hb] at hs
  · cases hb : f.bit with
    | none => simp [processField, getKey, ht, hb] at hs
    | some b =>
      simp only [processField, getKey, ht, hb] at hs
      simp only [reduceIte] at hs
      split at hs
      · simp [hn] at hs
      · simp at hs
  · simp [processField, getKey, ht, hsh] at hs
  · cases hsh : f.shift with
    | none => simp [processField, getKey, ht, hsh] at hs
    | some sv => simp [processField, getKey, ht, hsh, hm] at hs
  · cases hsh : f.shift with
    | none => simp [processField, getKey, ht, hsh] at hs
    | some sv =>
      cases hm : f.mask with
      | none => simp [processField, getKey, ht, hsh, hm] at hs
      | some mv => simp [processField, getKey, ht, hsh, hm, hv] at hs
  · cases hsh : f.shift with
    | none => simp [processField, getKey, ht, hsh] at hs
    | some sv =>
      cases hm : f.mask with
      | none => simp [processField, getKey, ht, hsh, hm] at hs
      | some mv =>
        cases hv : f.values with
        | none => simp [processField, getKey, ht, hsh, hm, hv] at hs
        | some vv => simp [processField, getKey, ht, hsh, hm, hv, hn] at hs

/-- C4 amended: a field of declared type mask or enum lacking a required key
appends nothing to the output and never aborts decoding; subsequent fields
are decoded exactly as without it; a diagnostic naming the missing key is
emitted exactly when the evaluation reaches the missing key (always, except
for a mask field missing only `name` whose bit test fails, which is skipped
silently). -/
theorem malformed_field_skipped (f : FieldSpec) (code : Int) (rest : List FieldSpec)
    (h : requiredKeyMissing f) :
    (decodeFields code (f :: rest)).1 = (decodeFields code rest).1 ∧
      (decodeFields code (f :: rest)).2 =
        (match processField code f with
         | Except.error k => [k]
         | Except.ok _ => []) ++ (decodeFields code rest).2 := by
  cases hp : processField code f with
  | error k => simp [decodeFields, hp]
  | ok o =>
    cases o with
    | none => simp [decodeFields, hp]
    | some s => exact absurd hp (processField_not_some_of_missing code f h s)

/-- A well-formed mask field on bit 0 used as a subsequent field in
witnesses. -/
def fGoodMask : FieldSpec := { type := some "mask", bit := some 0, name := some "B" }

/-- A mask field missing the required key `bit`. -/
def fBadMask : FieldSpec := { type := some "mask", bit := none, name := some "A" }

/-- A field with an unrecognized type discriminant. -/
def fUnknownType : FieldSpec :=
  { type := some "bitfield", bit := some 0, name := some "X" }

/-- A field dict with no `type` key at all. -/
def fNoType : FieldSpec := {}

/-- Witness for the amended C4: a mask field whose `bit` key is absent is
skipped with a diagnostic naming `bit`, and the following field decodes
unchanged. -/
theorem malformed_field_skipped_witness :
    requiredKeyMissing fBadMask ∧
      ((decodeFields 5 (fBadMask :: [fGoodMask])).1 = (decodeFields 5 [fGoodMask]).1 ∧
        (decodeFields 5 (fBadMask :: [fGoodMask])).2 =
          ["bit"] ++ (decodeFields 5 [fGoodMask]).2) :=
  ⟨Or.inl ⟨rfl, Or.inl rfl⟩,
    malformed_field_skipped fBadMask 5 [fGoodMask] (Or.inl ⟨rfl, Or.inl rfl⟩)⟩

/-- C5: for every integer code and definition (fields possibly missing keys),
`decode_status` returns a plain pair of lists: every per-field KeyError is
caught and surfaced as one diagnostic, every recognized value is surfaced as
an output entry (mapped or fallback), and nothing escapes the per-field
handler. -/
theorem decode_never_raises (code : Int) (d : StatusDefinition) :
    decode_status code d =
      ((d.fields.getD []).filterMap (fun f => ((processField code f).toOption).join),
       (d.fields.getD []).filterMap (fun f =>
         match processField code f with
         | Except.error k => some k
         | Except.ok _ => none)) := by
  simpa [decode_status] using decodeFields_eq code (d.fields.getD [])

/-- C6: the output is the ordered concatenation of the per-field appended
strings, in the order of the field list; fields that append nothing
(inactive masks, malformed entries, unrecognized types) contribute nothing
and do not shift later entries. -/
theorem decode_output_order (code : Int) (d : StatusDefinition) :
    (decode_status code d).1 =
      (d.fields.getD []).filterMap (fun f => ((processField code f).toOption).join) := by
  simp [decode_status, decodeFields_eq]

/-- C7: a definition with an empty field list decodes to the empty output
(and no diagnostics) for every code. -/
theorem empty_fields_empty_output (code : Int) (desc : Option String) :
    decode_status code { description := desc, fields := some [] } = ([], []) := rfl

/-- Counterexample for C8: a field whose `type` is the unrecognized
"bitfield" falls through the if/elif chain of the source: decode returns
`([], [])` — the field is dropped with NO diagnostic, contradicting the
claimed diagnostic emission. -/
theorem unknown_type_counterexample :
    decode_status 1 { fields := some [fUnknownType] } = ([], []) := by decide

/-- C8 amended: a field whose `type` discriminant is present but neither
"mask" nor "enum" is dropped silently — nothing appended, no diagnostic, no
exception — and decoding continues with the subsequent fields exactly as if
the field were absent. -/
theorem unknown_type_skipped (f : FieldSpec) (t : String) (code : Int)
    (rest : List FieldSpec)
    (h1 : f.type = some t) (h2 : t ≠ "mask") (h3 : t ≠ "enum") :
    decodeFields code (f :: rest) = decodeFields code rest := by
  simp [decodeFields, processField, getKey, h1, h2, h3]

/-- Witness for the amended C8. -/
theorem unknown_type_skipped_witness :
    fUnknownType.type = some "bitfield" ∧ "bitfield" ≠ "mask" ∧ "bitfield" ≠ "enum" ∧
      decodeFields 1 (fUnknownType :: [fGoodMask]) = decodeFields 1 [fGoodMask] :=
  ⟨rfl, by decide, by decide,
    unknown_type_skipped fUnknownType "bitfield" 1 [fGoodMask] rfl (by decide) (by decide)⟩

/-- C9: a status definition with no `fields` key at all decodes to the empty
output for every code, because the source reads the key with
`.get("fields", [])`. -/
theorem missing_fields_key_empty (code : Int) (desc : Option String) :
    decode_status code { description := desc, fields := none } = ([], []) := rfl

/-- C10: a field lacking the `type` key raises `KeyError("type")` inside the
try block, which is caught: the field appends nothing, one diagnostic naming
`type` is emitted, and the remaining fields decode unchanged. -/
theorem missing_type_key_skipped (f : FieldSpec) (code : Int) (rest : List FieldSpec)
    (h : f.type = none) :
    decodeFields code (f :: rest) =
      ((decodeFields code rest).1, "type" :: (decodeFields code rest).2) := by
  simp [decodeFields, processField, getKey, h]

/-- Witness for C10. -/
theorem missing_type_key_skipped_witness :
    fNoType.type = none ∧
      decodeFields 1 (fNoType :: [fGoodMask]) =
        ((decodeFields 1 [fGoodMask]).1, "type" :: (decodeFields 1 [fGoodMask]).2) :=
  ⟨rfl, missing_type_key_skipped fNoType 1 [fGoodMask] rfl⟩
